import Mathlib

/-
Verification of the trading-dashboard core against its specification.

Shallow embedding conventions:
* Python floats are modelled as exact rationals (ℚ).  The two sub-scorers
  that weight open interest by 1 / sqrt(days-to-expiration) are modelled
  over ℝ, since that weight is irrational.
* Python `round(x, k)` is modelled by `roundTo k` (nearest multiple of
  10^(-k); exact decimal ties round half-up here where CPython rounds the
  nearest binary double half-to-even — no property below depends on the
  tie case).
* Python `int(x)` on the non-negative values that occur is `Int.floor`.
* Dictionaries are modelled as association lists in insertion order,
  matching CPython's order-preserving dicts.
* Date parsing (`datetime.strptime` against the ambient current day) is
  modelled by an explicit parameter `pd : String → Option ℤ` giving the
  signed day count from today for a parseable expiration string, and
  `none` for an empty or malformed one.
-/

/-- One option contract as consumed by the aggregator and the scorer.
Fields carry the value after the Python `c.get(key, 0) or 0` coercion,
so a missing numeric field is 0, a missing string field is "". -/
structure Contract where
  symbol : String
  strike : ℚ
  expiration : String
  optType : String
  openInterest : ℚ
  volume : ℚ
  gamma : ℚ
  underlyingPrice : ℚ
deriving DecidableEq

/-- Per-ticker result record of the gamma aggregator, mirroring the dict
built at src/extract_gamma_levels.py lines 110-116. `none` strikes model
Python `None`; the value fields carry `0` in that case exactly as the
`... if max_pos_strike else 0` expressions do. -/
structure TickerLevels where
  price : ℚ
  maxPositiveGammaStrike : Option ℚ
  maxPositiveGammaValue : ℚ
  maxNegativeGammaStrike : Option ℚ
  maxNegativeGammaValue : ℚ
deriving DecidableEq

/-- Add `v` into the association list `cells` at `key`, accumulating in
place when the key is present and appending at the end otherwise —
the behaviour of `cell_gex[key] += net` on a Python dict. -/
def addCell (cells : List ((ℚ × String) × ℚ)) (key : ℚ × String) (v : ℚ) :
    List ((ℚ × String) × ℚ) :=
  match cells with
  | [] => [(key, v)]
  | (k, w) :: rest =>
      if k = key then (k, w + v) :: rest else (k, w) :: addCell rest key v

/-- Per-(strike, expiration) net GEX cells for one ticker's contracts
(src/extract_gamma_levels.py lines 68-94).  Contracts with strike 0 or a
type other than CALL/PUT are skipped; exposure is
gamma * openInterest * 100 * spot^2 * 0.01, CALL positive, PUT negative. -/
def cellGex (spot : ℚ) (cs : List Contract) : List ((ℚ × String) × ℚ) :=
  cs.foldl (fun cells c =>
    if c.strike = 0 then cells
    else
      let exposure := c.gamma * c.openInterest * 100 * spot * spot * (1/100)
      if c.optType = "CALL" then addCell cells (c.strike, c.expiration) exposure
      else if c.optType = "PUT" then addCell cells (c.strike, c.expiration) (-exposure)
      else cells) []

/-- One update of the positive-star accumulator
(src/extract_gamma_levels.py lines 103-105): `max_pos_gex` starts at
-inf, so with no star yet any positive cell is taken; afterwards the
comparison `gex > max_pos_gex` is strict, so among equal extremal cells
the first one in insertion order is kept. -/
def posStep (acc : Option (ℚ × ℚ)) (cell : (ℚ × String) × ℚ) : Option (ℚ × ℚ) :=
  match acc with
  | none => if 0 < cell.2 then some (cell.1.1, cell.2) else none
  | some (s, m) => if 0 < cell.2 ∧ m < cell.2 then some (cell.1.1, cell.2) else some (s, m)

/-- One update of the negative-star accumulator
(src/extract_gamma_levels.py lines 106-108), symmetric to `posStep`. -/
def negStep (acc : Option (ℚ × ℚ)) (cell : (ℚ × String) × ℚ) : Option (ℚ × ℚ) :=
  match acc with
  | none => if cell.2 < 0 then some (cell.1.1, cell.2) else none
  | some (s, m) => if cell.2 < 0 ∧ cell.2 < m then some (cell.1.1, cell.2) else some (s, m)

/-- Scan of src/extract_gamma_levels.py lines 96-108 over the cells:
returns (positive star, negative star) as (strike, value) pairs. -/
def findStars (cells : List ((ℚ × String) × ℚ)) :
    Option (ℚ × ℚ) × Option (ℚ × ℚ) :=
  cells.foldl (fun acc cell => (posStep acc.1 cell, negStep acc.2 cell)) (none, none)

/-- Star levels for one ticker from its contracts and shared spot price. -/
def starLevels (spot : ℚ) (cs : List Contract) : TickerLevels :=
  let stars := findStars (cellGex spot cs)
  { price := spot
    maxPositiveGammaStrike := stars.1.map Prod.fst
    maxPositiveGammaValue := match stars.1 with | some p => p.2 | none => 0
    maxNegativeGammaStrike := stars.2.map Prod.fst
    maxNegativeGammaValue := match stars.2 with | some p => p.2 | none => 0 }

/-- Insert one contract into the by-ticker groups
(src/extract_gamma_levels.py lines 57-60): the first contract of a ticker
fixes the ticker's spot price; later contracts are appended. -/
def insertGroup (groups : List (String × ℚ × List Contract)) (t : String)
    (spot : ℚ) (c : Contract) : List (String × ℚ × List Contract) :=
  match groups with
  | [] => [(t, spot, [c])]
  | g :: rest =>
      if g.1 = t then (g.1, g.2.1, g.2.2 ++ [c]) :: rest
      else g :: insertGroup rest t spot c

/-- Grouping loop of src/extract_gamma_levels.py lines 48-60.  A contract
with an empty symbol is skipped; a contract whose spot is exactly 0 is
skipped (`if spot == 0: continue` — note this is an equality test, not
`spot <= 0`). -/
def groupContracts : List Contract → List (String × ℚ × List Contract) →
    List (String × ℚ × List Contract)
  | [], groups => groups
  | c :: cs, groups =>
      if c.symbol = "" then groupContracts cs groups
      else if c.underlyingPrice = 0 then groupContracts cs groups
      else groupContracts cs (insertGroup groups c.symbol c.underlyingPrice c)

/-- compute_star_levels (src/extract_gamma_levels.py lines 33-118):
group contracts by ticker, then compute the star levels of each ticker
from its own contracts and its recorded spot price. -/
def computeStarLevels (contracts : List Contract) : List (String × TickerLevels) :=
  (groupContracts contracts []).map (fun g => (g.1, starLevels g.2.1 g.2.2))

/-- Python `round(x, k)` over ℚ: round to the nearest multiple of 10^(-k). -/
def roundTo (k : ℕ) (x : ℚ) : ℚ := (round (x * 10 ^ k) : ℚ) / 10 ^ k

/-- The piecewise multiplier curve of `_compute_dte_weight`
(src/agent/scorer.py lines 119-127) before the final rounding. -/
def dteCurveRaw (avgDte : ℚ) : ℚ :=
  if avgDte ≤ 1 then 3/2
  else if avgDte ≤ 7 then 3/2 - (avgDte - 1) * (1/20)
  else if avgDte ≤ 30 then 6/5 - (avgDte - 7) * (87/10000)
  else max (1/2) (1 - (avgDte - 30) * (1/200))

/-- The multiplier returned for a given open-interest-weighted average
DTE, including the final `round(multiplier, 3)` of src/agent/scorer.py
line 129. -/
def dteCurve (avgDte : ℚ) : ℚ := roundTo 3 (dteCurveRaw avgDte)

/-- `_compute_dte_weight` (src/agent/scorer.py lines 75-129): restrict to
contracts with strike within ±5% of price and positive open interest,
average their day counts (floored at 1; 30 when the expiration is missing
or unparseable) weighted by open interest, and apply `dteCurve`.
Returns the neutral 1.0 for no contracts, non-positive price, or no
qualifying open interest. -/
def computeDteWeight (pd : String → Option ℤ) (contracts : List Contract)
    (price : ℚ) : ℚ :=
  if contracts = [] ∨ price ≤ 0 then 1
  else
    let lo := price * (19/20)
    let hi := price * (21/20)
    let step : ℚ × ℚ → Contract → ℚ × ℚ := fun a c =>
      if lo ≤ c.strike ∧ c.strike ≤ hi then
        if c.openInterest ≤ 0 then a
        else
          let dte : ℤ := match pd c.expiration with | some d => max d 1 | none => 30
          (a.1 + (dte : ℚ) * c.openInterest, a.2 + c.openInterest)
      else a
    let acc := contracts.foldl step (0, 0)
    if acc.2 = 0 then 1 else dteCurve (acc.1 / acc.2)

/-- One recommendation outcome row as consumed by the backtester
(src/agent/backtester.py lines 62-65); fields carry the values after
`o.get(key, default)`. -/
structure Outcome where
  ticker : String
  score : ℤ
  direction : String
  returnPct : ℚ
deriving DecidableEq

/-- Per-tier accumulator of the outcome loop: `count`, `correct` and the
raw `returns` list (src/agent/backtester.py lines 55-60, 77-78). -/
structure TierAcc where
  count : ℕ
  correct : ℕ
  returns : List ℚ
deriving DecidableEq

/-- Final per-tier statistics (src/agent/backtester.py lines 96-101).
`hitRate = none` models the absent 'hit_rate' key: the Python code sets
it only inside `if t['returns']:`, so a tier that received no outcome
keeps only count/correct/avg_return. -/
structure TierStats where
  count : ℕ
  correct : ℕ
  avgReturn : ℚ
  hitRate : Option ℚ
deriving DecidableEq

/-- Accumulator of the whole outcome loop (src/agent/backtester.py
lines 49-60). -/
structure Tally where
  bullishCorrect : ℕ
  bullishTotal : ℕ
  bearishCorrect : ℕ
  bearishTotal : ℕ
  neutralTotal : ℕ
  t80 : TierAcc
  t60 : TierAcc
  t40 : TierAcc
  t0 : TierAcc
deriving DecidableEq

def emptyTierAcc : TierAcc := ⟨0, 0, []⟩

def emptyTally : Tally := ⟨0, 0, 0, 0, 0, emptyTierAcc, emptyTierAcc, emptyTierAcc, emptyTierAcc⟩

/-- Append one outcome into a tier accumulator; `hit` says whether the
outcome counted as correct for its direction. -/
def bumpTier (a : TierAcc) (ret : ℚ) (hit : Bool) : TierAcc :=
  { count := a.count + 1
    correct := a.correct + (if hit then 1 else 0)
    returns := a.returns ++ [ret] }

/-- Hit criterion of src/agent/backtester.py lines 81-94: BULLISH hits on
a positive return, BEARISH on a negative one, anything else on
|return| < 0.5. -/
def outcomeHit (o : Outcome) : Bool :=
  if o.direction = "BULLISH" then decide (0 < o.returnPct)
  else if o.direction = "BEARISH" then decide (o.returnPct < 0)
  else decide (|o.returnPct| < 1/2)

/-- Direction-accuracy update of the outcome loop
(src/agent/backtester.py lines 81-94). -/
def applyDirection (t : Tally) (o : Outcome) : Tally :=
  let hit := outcomeHit o
  if o.direction = "BULLISH" then
    { t with bullishTotal := t.bullishTotal + 1
             bullishCorrect := t.bullishCorrect + (if hit then 1 else 0) }
  else if o.direction = "BEARISH" then
    { t with bearishTotal := t.bearishTotal + 1
             bearishCorrect := t.bearishCorrect + (if hit then 1 else 0) }
  else { t with neutralTotal := t.neutralTotal + 1 }

/-- Tier-bucket update of the outcome loop (src/agent/backtester.py
lines 67-94): score >=80, >=60, >=40, else; the tier's correct counter
is bumped under the same hit condition as the direction counter. -/
def applyTier (t : Tally) (o : Outcome) : Tally :=
  let hit := outcomeHit o
  if 80 ≤ o.score then { t with t80 := bumpTier t.t80 o.returnPct hit }
  else if 60 ≤ o.score then { t with t60 := bumpTier t.t60 o.returnPct hit }
  else if 40 ≤ o.score then { t with t40 := bumpTier t.t40 o.returnPct hit }
  else { t with t0 := bumpTier t.t0 o.returnPct hit }

/-- One iteration of the outcome loop (src/agent/backtester.py lines
62-94). -/
def tallyStep (t : Tally) (o : Outcome) : Tally :=
  applyTier (applyDirection t o) o

/-- Tier finalisation (src/agent/backtester.py lines 96-101): with a
non-empty returns list, average return rounded to 3 decimals and hit rate
rounded to 1 decimal; otherwise avg_return stays 0 and no hit_rate key. -/
def finalizeTier (a : TierAcc) : TierStats :=
  if a.returns = [] then
    { count := a.count, correct := a.correct, avgReturn := 0, hitRate := none }
  else
    { count := a.count
      correct := a.correct
      avgReturn := roundTo 3 (a.returns.sum / (a.returns.length : ℚ))
      hitRate := some (if 0 < a.count then
        roundTo 1 ((a.correct : ℚ) / (a.count : ℚ) * 100) else 0) }

/-- The accuracy block of the backtest report
(src/agent/backtester.py lines 110-117). -/
structure Accuracy where
  bullishHitRate : ℚ
  bearishHitRate : ℚ
  overallHitRate : ℚ
  bullishTotal : ℕ
  bearishTotal : ℕ
  neutralTotal : ℕ
deriving DecidableEq

/-- The backtest report (src/agent/backtester.py lines 39-46 and
107-120).  `lookbackHours`, `message` and `accuracy` are `Option`s
because the empty-history return dict has no 'lookback_hours' key, the
non-empty one has no 'message' key, and the empty one has an empty
accuracy dict. -/
structure BacktestReport where
  totalRecommendations : ℕ
  lookbackHours : Option ℤ
  message : Option String
  accuracy : Option Accuracy
  byScoreTier : List (String × TierStats)
  outcomes : List Outcome
deriving DecidableEq

/-- `evaluate_recommendations` (src/agent/backtester.py lines 18-125)
with the outcome rows supplied by the external provider passed in
explicitly.  The DB-error branch (lines 32-37) is not modelled. -/
def evaluateRecommendations (hours : ℤ) (outcomes : List Outcome) :
    BacktestReport :=
  if outcomes = [] then
    { totalRecommendations := 0
      lookbackHours := none
      message := some "No recommendation data yet. Run the fetcher to generate history."
      accuracy := none
      byScoreTier := []
      outcomes := [] }
  else
    let t := outcomes.foldl tallyStep emptyTally
    let totalDirectional := t.bullishTotal + t.bearishTotal
    let totalCorrect := t.bullishCorrect + t.bearishCorrect
    { totalRecommendations := outcomes.length
      lookbackHours := some hours
      message := none
      accuracy := some
        { bullishHitRate := if 0 < t.bullishTotal then
            roundTo 1 ((t.bullishCorrect : ℚ) / (t.bullishTotal : ℚ) * 100) else 0
          bearishHitRate := if 0 < t.bearishTotal then
            roundTo 1 ((t.bearishCorrect : ℚ) / (t.bearishTotal : ℚ) * 100) else 0
          overallHitRate := if 0 < totalDirectional then
            roundTo 1 ((totalCorrect : ℚ) / (totalDirectional : ℚ) * 100) else 0
          bullishTotal := t.bullishTotal
          bearishTotal := t.bearishTotal
          neutralTotal := t.neutralTotal }
      byScoreTier := [("80-100", finalizeTier t.t80), ("60-79", finalizeTier t.t60),
                      ("40-59", finalizeTier t.t40), ("0-39", finalizeTier t.t0)]
      outcomes := outcomes.take 50 }


/-- A scored signal (src/agent/scorer.py lines 44-50).  The numeric
interpolation in the detail strings is omitted; only their static wording
is kept. -/
structure SignalScore where
  name : String
  score : ℤ
  maxScore : ℤ
  detail : String
deriving DecidableEq

/-- The ATM aggregated analytics dict `{ price, strikes: {...} }` read by
the scorer; `strikes` maps a strike to its `total_delta`. -/
structure Analytics where
  price : ℚ
  strikes : List (ℚ × ℚ)
deriving DecidableEq

/-- The momentum dict from the historical context
(`gex_trend`, `gex_samples`). -/
structure Momentum where
  gexTrend : ℚ
  gexSamples : ℕ
deriving DecidableEq

/-- Historical context for one ticker (src/agent/scorer.py lines 556-560
and 635-645).  `momentum = none` models the empty dict; `ivRank = none`
models an explicit Python `None` value. -/
structure HistCtx where
  gexPercentile : ℚ
  momentum : Option Momentum
  ivRank : Option ℚ
  previousPcRat : Option ℚ
deriving DecidableEq

/-- `_score_gex_regime` (src/agent/scorer.py lines 135-159). -/
def scoreGexRegime (netGex percentile : ℚ) (maxWeight : ℤ) : SignalScore :=
  if netGex = 0 then ⟨"GEX Regime", 0, maxWeight, "No GEX data available"⟩
  else
    let distanceFromCenter := |percentile - 1/2| * 2
    let raw := min 1 (1/5 + distanceFromCenter * (4/5))
    ⟨"GEX Regime", ⌊raw * (maxWeight : ℚ)⌋, maxWeight,
      if 0 < netGex then "POSITIVE (mean-reversion)" else "NEGATIVE (trending)"⟩

/-- `_score_wall_proximity` (src/agent/scorer.py lines 162-205).  The
Python guard `if pos_strike and pos_strike > 0` (truthy and positive)
collapses to `0 < s` on a present strike. -/
def scoreWallProximity (price : ℚ) (posStrike negStrike : Option ℚ)
    (maxWeight : ℤ) : SignalScore :=
  if price ≤ 0 then ⟨"Wall Proximity", 0, maxWeight, "No price data"⟩
  else
    let best0 : ℚ := 100
    let best1 := match posStrike with
      | some s =>
          if 0 < s then
            let dist := |price - s| / price * 100
            if dist < best0 then dist else best0
          else best0
      | none => best0
    let best2 := match negStrike with
      | some s =>
          if 0 < s then
            let dist := |price - s| / price * 100
            if dist < best1 then dist else best1
          else best1
      | none => best1
    let raw : ℚ :=
      if best2 ≤ 1/2 then 1
      else if best2 ≤ 1 then 17/20
      else if best2 ≤ 2 then 13/20
      else if best2 ≤ 5 then 2/5
      else 3/20
    ⟨"Wall Proximity", ⌊raw * (maxWeight : ℚ)⌋, maxWeight, "distance to nearest wall"⟩

/-- The per-contract DTE decay weight used by the P/C-skew and Vol/OI
sub-scorers (src/agent/scorer.py lines 232-240, 296-304): a parseable
expiration gives 1/sqrt(max days 1), otherwise the weight stays 1. -/
noncomputable def dteDecay (pd : String → Option ℤ) (e : String) : ℝ :=
  match pd e with
  | some d => 1 / Real.sqrt ((max d 1 : ℤ) : ℝ)
  | none => 1

/-- The ATM DTE-weighted open-interest accumulation loop of
`_score_pc_skew` (src/agent/scorer.py lines 225-246), returning
(weighted call OI sum, weighted put OI sum). -/
noncomputable def pcSkewOiSums (pd : String → Option ℤ)
    (contracts : List Contract) (lo hi : ℚ) : ℝ × ℝ :=
  contracts.foldl (fun a c =>
    if lo ≤ c.strike ∧ c.strike ≤ hi then
      let weightedOi := (c.openInterest : ℝ) * dteDecay pd c.expiration
      if c.optType = "CALL" then (a.1 + weightedOi, a.2)
      else if c.optType = "PUT" then (a.1, a.2 + weightedOi)
      else a
    else a) (0, 0)

/-- `_score_pc_skew` (src/agent/scorer.py lines 208-268).  The
`dte_multiplier` argument is accepted and unused, exactly as in the
source. -/
noncomputable def scorePcSkew (pd : String → Option ℤ)
    (contracts : List Contract) (price : ℚ) (_dteMultiplier : ℚ)
    (maxWeight : ℤ) : SignalScore :=
  if contracts = [] ∨ price ≤ 0 then
    ⟨"P/C Skew", 0, maxWeight, "No contract data"⟩
  else
    let oi := pcSkewOiSums pd contracts (price * (19/20)) (price * (21/20))
    if oi.1 = 0 ∧ oi.2 = 0 then ⟨"P/C Skew", 0, maxWeight, "No ATM OI data"⟩
    else
      let pcRat : ℝ := if 0 < oi.1 then oi.2 / oi.1 else 999
      let raw : ℚ :=
        if 2 < pcRat ∨ pcRat < 1/2 then 1
        else if 3/2 < pcRat ∨ pcRat < 67/100 then 3/4
        else if 6/5 < pcRat ∨ pcRat < 83/100 then 1/2
        else 1/4
      ⟨"P/C Skew", ⌊raw * (maxWeight : ℚ)⌋, maxWeight,
        if 6/5 < pcRat then "PUT-heavy (bearish)"
        else if pcRat < 83/100 then "CALL-heavy (bullish)" else "balanced"⟩

/-- `_score_volume_oi_surge` (src/agent/scorer.py lines 271-331).  The
surge-strike collection (lines 309-310, 326) feeds only the detail string
and is not modelled; `dte_multiplier` is accepted and unused as in the
source. -/
noncomputable def scoreVolumeOiSurge (pd : String → Option ℤ)
    (contracts : List Contract) (price : ℚ) (_dteMultiplier : ℚ)
    (maxWeight : ℤ) : SignalScore :=
  if contracts = [] ∨ price ≤ 0 then
    ⟨"Vol/OI Surge", 0, maxWeight, "No contract data"⟩
  else
    let lo := price * (19/20)
    let hi := price * (21/20)
    let step : ℝ × ℝ → Contract → ℝ × ℝ := fun a c =>
      if lo ≤ c.strike ∧ c.strike ≤ hi then
        let w := dteDecay pd c.expiration
        (a.1 + (c.volume : ℝ) * w, a.2 + (c.openInterest : ℝ) * w)
      else a
    let tot := contracts.foldl step (0, 0)
    let volOiRat : ℝ := if 0 < tot.2 then tot.1 / tot.2 else 0
    let raw : ℚ :=
      if 1 < volOiRat then 1
      else if 1/2 < volOiRat then 3/4
      else if 1/4 < volOiRat then 1/2
      else if 1/10 < volOiRat then 3/10
      else 1/10
    ⟨"Vol/OI Surge", ⌊raw * (maxWeight : ℚ)⌋, maxWeight, "Vol/OI ratio"⟩

/-- `_score_iv_rank` (src/agent/scorer.py lines 334-361). -/
def scoreIvRank (ivRank : Option ℚ) (maxWeight : ℤ) : SignalScore :=
  match ivRank with
  | none => ⟨"IV Rank", 0, maxWeight, "No IV data available"⟩
  | some iv =>
      let distanceFromCenter := |iv - 1/2| * 2
      let raw := 1/10 + distanceFromCenter * (9/10)
      ⟨"IV Rank", ⌊raw * (maxWeight : ℚ)⌋, maxWeight,
        if 4/5 ≤ iv then "HIGH" else if 1/2 ≤ iv then "ELEVATED"
        else if 1/5 ≤ iv then "LOW" else "VERY LOW"⟩

/-- `_score_directional_bias` (src/agent/scorer.py lines 364-401). -/
def scoreDirectionalBias (analytics : Option Analytics) (price : ℚ)
    (maxWeight : ℤ) : SignalScore :=
  match analytics with
  | none => ⟨"Directional Bias", 0, maxWeight, "No analytics data"⟩
  | some a =>
      if a.strikes = [] ∨ price ≤ 0 then
        ⟨"Directional Bias", 0, maxWeight, "No analytics data"⟩
      else
        let lo := price * (9/10)
        let hi := price * (11/10)
        let netDelta : ℚ := a.strikes.foldl
          (fun s p => if lo ≤ p.1 ∧ p.1 ≤ hi then s + p.2 else s) 0
        let absDelta := |netDelta|
        let raw : ℚ :=
          if 500000 < absDelta then 1
          else if 100000 < absDelta then 3/4
          else if 25000 < absDelta then 1/2
          else if 5000 < absDelta then 3/10
          else 1/10
        ⟨"Directional Bias", ⌊raw * (maxWeight : ℚ)⌋, maxWeight,
          if 0 < netDelta then "BULLISH" else if netDelta < 0 then "BEARISH" else "FLAT"⟩

/-- `_score_gex_momentum` (src/agent/scorer.py lines 404-434). -/
def scoreGexMomentum (momentum : Option Momentum) (maxWeight : ℤ) : SignalScore :=
  match momentum with
  | none => ⟨"GEX Momentum", 0, maxWeight, "Insufficient history"⟩
  | some m =>
      if m.gexSamples < 2 then ⟨"GEX Momentum", 0, maxWeight, "Insufficient history"⟩
      else
        let absTrend := |m.gexTrend|
        let raw : ℚ :=
          if 1/2 < absTrend then 1
          else if 1/4 < absTrend then 7/10
          else if 1/10 < absTrend then 2/5
          else 3/20
        ⟨"GEX Momentum", ⌊raw * (maxWeight : ℚ)⌋, maxWeight,
          if 1/20 < m.gexTrend then "RISING"
          else if m.gexTrend < -(1/20) then "FALLING" else "FLAT"⟩

/-- The ATM unweighted open-interest loop of `_score_skew_momentum`
(src/agent/scorer.py lines 450-462), returning (call OI sum, put OI sum). -/
def skewOiSums (contracts : List Contract) (lo hi : ℚ) : ℚ × ℚ :=
  contracts.foldl (fun a c =>
    if lo ≤ c.strike ∧ c.strike ≤ hi then
      if c.optType = "CALL" then (a.1 + c.openInterest, a.2)
      else if c.optType = "PUT" then (a.1, a.2 + c.openInterest)
      else a
    else a) (0, 0)

/-- `_score_skew_momentum` (src/agent/scorer.py lines 437-494): current
unweighted ATM P/C OI ratio against the previous cycle's ratio. -/
def scoreSkewMomentum (contracts : List Contract) (price : ℚ)
    (previousPcRat : Option ℚ) (maxWeight : ℤ) : SignalScore :=
  if contracts = [] ∨ price ≤ 0 then
    ⟨"Skew Momentum", 0, maxWeight, "No contract data"⟩
  else
    let oi := skewOiSums contracts (price * (19/20)) (price * (21/20))
    if oi.1 = 0 ∧ oi.2 = 0 then ⟨"Skew Momentum", 0, maxWeight, "No ATM OI"⟩
    else
      let currentRat : ℚ := if 0 < oi.1 then oi.2 / oi.1 else 999
      let noHistory : Bool := match previousPcRat with
        | none => true
        | some prev => decide (prev ≤ 0)
      if noHistory then
        ⟨"Skew Momentum", ⌊(1/5 : ℚ) * (maxWeight : ℚ)⌋, maxWeight, "no history for trend"⟩
      else
        let prev := previousPcRat.getD 0
        let change := (currentRat - prev) / prev
        let absChange := |change|
        let raw : ℚ :=
          if 3/10 < absChange then 1
          else if 3/20 < absChange then 7/10
          else if 1/20 < absChange then 2/5
          else 3/20
        ⟨"Skew Momentum", ⌊raw * (maxWeight : ℚ)⌋, maxWeight,
          if 1/20 < change then "PUTS increasing"
          else if change < -(1/20) then "CALLS increasing" else "Stable"⟩

/-- `_score_dte_conviction` (src/agent/scorer.py lines 497-522). -/
def scoreDteConviction (dteMultiplier : ℚ) (maxWeight : ℤ) : SignalScore :=
  let raw : ℚ :=
    if 7/5 ≤ dteMultiplier then 1
    else if 6/5 ≤ dteMultiplier then 3/4
    else if 1 ≤ dteMultiplier then 9/20
    else if 7/10 ≤ dteMultiplier then 1/4
    else 1/10
  ⟨"DTE Conviction", ⌊raw * (maxWeight : ℚ)⌋, maxWeight, "DTE multiplier"⟩

/-- What `score_ticker` returns, restricted to the fields the claims are
about: the 9 scored signals in order and the clamped total.  The strategy
lookup, reasoning text and risk notes (src/agent/scorer.py lines 580-618)
are not modelled. -/
structure ScoreResult where
  ticker : String
  score : ℤ
  signals : List SignalScore
  priceAtScore : ℚ
  ivRankValue : Option ℚ
  netGexValue : ℚ

/-- `score_ticker` (src/agent/scorer.py lines 528-578): default the
missing historical context (absent iv_rank / gex_percentile keys default
to 0.5), compute the DTE multiplier, score the 9 signals with the WEIGHTS
table (20, 15, 12, 12, 10, 10, 8, 5, 8) and clamp the summed total into
[0, 100]. -/
noncomputable def scoreTicker (pd : String → Option ℤ) (ticker : String)
    (contracts : List Contract) (analytics : Option Analytics)
    (gammaLevels : Option TickerLevels) (historicalContext : Option HistCtx) :
    ScoreResult :=
  let price := match analytics with | some a => a.price | none => 0
  let posStrike := gammaLevels.bind (fun g => g.maxPositiveGammaStrike)
  let negStrike := gammaLevels.bind (fun g => g.maxNegativeGammaStrike)
  let posGex := match gammaLevels with | some g => g.maxPositiveGammaValue | none => 0
  let negGex := match gammaLevels with | some g => g.maxNegativeGammaValue | none => 0
  let netGex := posGex + negGex
  let gexPercentile := match historicalContext with | some h => h.gexPercentile | none => 1/2
  let momentum := historicalContext.bind (fun h => h.momentum)
  let ivRank := match historicalContext with | some h => h.ivRank | none => some (1/2)
  let prevPc := historicalContext.bind (fun h => h.previousPcRat)
  let dteMult := computeDteWeight pd contracts price
  let s1 := scoreGexRegime netGex gexPercentile 20
  let s2 := scoreWallProximity price posStrike negStrike 15
  let s3 := scorePcSkew pd contracts price dteMult 12
  let s4 := scoreVolumeOiSurge pd contracts price dteMult 12
  let s5 := scoreIvRank ivRank 10
  let s6 := scoreDirectionalBias analytics price 10
  let s7 := scoreGexMomentum momentum 8
  let s8 := scoreSkewMomentum contracts price prevPc 5
  let s9 := scoreDteConviction dteMult 8
  let allSignals := [s1, s2, s3, s4, s5, s6, s7, s8, s9]
  let total := max 0 (min 100 ((allSignals.map (fun s => s.score)).sum))
  { ticker := ticker, score := total, signals := allSignals,
    priceAtScore := price, ivRankValue := ivRank, netGexValue := netGex }

/- ───────────── Shared helper lemmas ───────────── -/

theorem floorScore_bounds {raw : ℚ} {mw : ℤ} (h0 : 0 ≤ raw) (h1 : raw ≤ 1)
    (hm : 0 ≤ mw) : 0 ≤ ⌊raw * (mw : ℚ)⌋ ∧ ⌊raw * (mw : ℚ)⌋ ≤ mw := by
  constructor
  · exact Int.floor_nonneg.mpr (mul_nonneg h0 (by exact_mod_cast hm))
  · calc ⌊raw * (mw : ℚ)⌋ ≤ ⌊(mw : ℚ)⌋ := by
          apply Int.floor_mono
          calc raw * (mw : ℚ) ≤ 1 * (mw : ℚ) :=
                mul_le_mul_of_nonneg_right h1 (by exact_mod_cast hm)
            _ = (mw : ℚ) := one_mul _
      _ = mw := Int.floor_intCast mw

theorem roundQ_mono {x y : ℚ} (h : x ≤ y) : round x ≤ round y := by
  rw [round_eq, round_eq]
  exact Int.floor_mono (by linarith)

theorem roundTo_mono (k : ℕ) {x y : ℚ} (h : x ≤ y) :
    roundTo k x ≤ roundTo k y := by
  unfold roundTo
  have h10 : (0:ℚ) < 10 ^ k := by positivity
  have hr : round (x * 10 ^ k) ≤ round (y * 10 ^ k) :=
    roundQ_mono (mul_le_mul_of_nonneg_right h (le_of_lt h10))
  exact div_le_div_of_nonneg_right (by exact_mod_cast hr) h10.le

/- ───────────── C2 ───────────── -/

/-- C2 (confirmed): a single CALL contract with gamma 0.02, open interest
10000 and shared spot 500 produces exposure
gamma * oi * 100 * spot^2 * 0.01 = 50,000,000 with positive sign in the
cell keyed by (strike, expiration); the PUT with the same numbers
contributes the negated exposure. -/
theorem gex_scenario_a :
    cellGex 500 [⟨"SPY", 505, "2025-12-19", "CALL", 10000, 0, 1/50, 500⟩] =
      [((505, "2025-12-19"), 50000000)] ∧
    cellGex 500 [⟨"SPY", 505, "2025-12-19", "PUT", 10000, 0, 1/50, 500⟩] =
      [((505, "2025-12-19"), -50000000)] ∧
    computeStarLevels [⟨"SPY", 505, "2025-12-19", "CALL", 10000, 0, 1/50, 500⟩] =
      [("SPY", ⟨500, some 505, 50000000, none, 0⟩)] := by
  refine ⟨?_, ?_, ?_⟩ <;>
    norm_num +decide [cellGex, addCell, computeStarLevels, groupContracts, insertGroup,
      starLevels, findStars, posStep, negStep, List.foldl]

/- ───────────── C3 ───────────── -/

/-- Skipping a zero-spot contract anywhere in the input does not change
the grouping (src/extract_gamma_levels.py lines 53-54). -/
theorem groupContracts_skip_zero_spot (pre post : List Contract) (c : Contract)
    (h : c.underlyingPrice = 0) (groups : List (String × ℚ × List Contract)) :
    groupContracts (pre ++ c :: post) groups = groupContracts (pre ++ post) groups := by
  induction pre generalizing groups with
  | nil => simp [groupContracts, h]
  | cons d pre ih =>
      simp only [List.cons_append, groupContracts]
      split
      · exact ih _
      · split
        · exact ih _
        · exact ih _

/-- C3 counterexample: the claim says every contract with spot ≤ 0 is
excluded, but the source only tests `spot == 0`; a CALL with spot −500
passes the check and contributes a cell (spot enters squared) and the
call wall. -/
theorem gamma_negative_spot_contributes :
    computeStarLevels [⟨"X", 100, "2026-01-16", "CALL", 100, 0, 1/50, -500⟩] =
      [("X", ⟨-500, some 100, 500000, none, 0⟩)] := by
  norm_num +decide [computeStarLevels, groupContracts, insertGroup, starLevels,
    findStars, posStep, negStep, cellGex, addCell, List.foldl]

/-- C3 amended: a contract whose spot is exactly 0 (or missing, coerced
to 0) is excluded entirely from the aggregation; contracts with negative
spot are NOT excluded. -/
theorem gamma_zero_spot_excluded (pre post : List Contract) (c : Contract)
    (h : c.underlyingPrice = 0) :
    computeStarLevels (pre ++ c :: post) = computeStarLevels (pre ++ post) := by
  unfold computeStarLevels
  rw [groupContracts_skip_zero_spot pre post c h]

/-- Witness for C3's amended theorem at a concrete input. -/
theorem gamma_zero_spot_excluded_witness :
    (⟨"BAD", 100, "E", "CALL", 5, 0, 1/100, 0⟩ : Contract).underlyingPrice = 0 ∧
    computeStarLevels ([] ++ (⟨"BAD", 100, "E", "CALL", 5, 0, 1/100, 0⟩ : Contract) ::
        [⟨"SPY", 505, "2025-12-19", "CALL", 10000, 0, 1/50, 500⟩]) =
      computeStarLevels ([] ++ [⟨"SPY", 505, "2025-12-19", "CALL", 10000, 0, 1/50, 500⟩]) :=
  ⟨rfl, gamma_zero_spot_excluded [] [⟨"SPY", 505, "2025-12-19", "CALL", 10000, 0, 1/50, 500⟩]
    ⟨"BAD", 100, "E", "CALL", 5, 0, 1/100, 0⟩ rfl⟩

/- ───────────── C7 ───────────── -/

/-- C7 (confirmed): with an empty outcome history the backtester returns
the explicit no-data report: zero total, a 'message' key, an empty
accuracy dict (no hit-rate division is ever formed), empty tiers and
outcomes. -/
theorem backtest_empty_history (hours : ℤ) :
    evaluateRecommendations hours [] =
      { totalRecommendations := 0
        lookbackHours := none
        message := some "No recommendation data yet. Run the fetcher to generate history."
        accuracy := none
        byScoreTier := []
        outcomes := [] } := by
  simp [evaluateRecommendations]

/- ───────────── C4 ───────────── -/

theorem foldl_pair_split {α β γ : Type} (f : α → γ → α) (g : β → γ → β)
    (l : List γ) (a : α) (b : β) :
    l.foldl (fun p x => (f p.1 x, g p.2 x)) (a, b) = (l.foldl f a, l.foldl g b) := by
  induction l generalizing a b with
  | nil => rfl
  | cons c rest ih => simp only [List.foldl_cons]; exact ih (f a c) (g b c)

theorem posStep_fold_ge (cells : List ((ℚ × String) × ℚ)) (s m : ℚ) :
    ∃ s' m', cells.foldl posStep (some (s, m)) = some (s', m') ∧ m ≤ m' := by
  induction cells generalizing s m with
  | nil => exact ⟨s, m, rfl, le_refl m⟩
  | cons c rest ih =>
      simp only [List.foldl_cons, posStep]
      split_ifs with hc
      · obtain ⟨s', m', h, hle⟩ := ih c.1.1 c.2
        exact ⟨s', m', h, le_trans (le_of_lt hc.2) hle⟩
      · exact ih s m

theorem posStep_fold_dominates (cells : List ((ℚ × String) × ℚ))
    (acc : Option (ℚ × ℚ)) (d : (ℚ × String) × ℚ) (hd : d ∈ cells)
    (hpos : 0 < d.2) :
    ∃ s' m', cells.foldl posStep acc = some (s', m') ∧ d.2 ≤ m' := by
  induction cells generalizing acc with
  | nil => cases hd
  | cons c rest ih =>
      rcases List.mem_cons.mp hd with rfl | hd
      · cases acc with
        | none =>
            simp only [List.foldl_cons, posStep, if_pos hpos]
            exact posStep_fold_ge rest d.1.1 d.2
        | some p =>
            obtain ⟨s, m⟩ := p
            simp only [List.foldl_cons, posStep]
            split_ifs with hc
            · exact posStep_fold_ge rest d.1.1 d.2
            · have hdm : d.2 ≤ m := by
                rcases not_and_or.mp hc with h1 | h1
                · exact absurd hpos h1
                · exact le_of_not_lt h1
              obtain ⟨s', m', h, hle⟩ := posStep_fold_ge rest s m
              exact ⟨s', m', h, le_trans hdm hle⟩
      · exact ih (posStep acc c) hd

theorem posStep_preserves_pos {acc : Option (ℚ × ℚ)} {c : (ℚ × String) × ℚ}
    {s m : ℚ} (hacc : ∀ s0 m0, acc = some (s0, m0) → 0 < m0)
    (h : posStep acc c = some (s, m)) : 0 < m := by
  cases acc with
  | none =>
      simp only [posStep] at h
      split_ifs at h with hc
      · simp only [Option.some.injEq, Prod.mk.injEq] at h
        exact h.2 ▸ hc
  | some p =>
      obtain ⟨s0, m0⟩ := p
      simp only [posStep] at h
      split_ifs at h with hc
      · simp only [Option.some.injEq, Prod.mk.injEq] at h
        exact h.2 ▸ hc.1
      · simp only [Option.some.injEq, Prod.mk.injEq] at h
        exact h.2 ▸ hacc s0 m0 rfl

theorem posStep_fold_pos (cells : List ((ℚ × String) × ℚ))
    (acc : Option (ℚ × ℚ)) (hacc : ∀ s0 m0, acc = some (s0, m0) → 0 < m0) :
    ∀ s' m', cells.foldl posStep acc = some (s', m') → 0 < m' := by
  induction cells generalizing acc with
  | nil => exact hacc
  | cons c rest ih =>
      intro s' m' h
      refine ih (posStep acc c) ?_ s' m' h
      intro s0 m0 h0
      exact posStep_preserves_pos hacc h0

theorem posStep_fold_mem (cells : List ((ℚ × String) × ℚ))
    (acc : Option (ℚ × ℚ)) (s' m' : ℚ)
    (h : cells.foldl posStep acc = some (s', m')) :
    acc = some (s', m') ∨ ∃ e, ((s', e), m') ∈ cells := by
  induction cells generalizing acc with
  | nil => exact Or.inl h
  | cons c rest ih =>
      rcases ih (posStep acc c) h with h1 | h1
      · cases acc with
        | none =>
            simp only [posStep] at h1
            split_ifs at h1 with hc
            · simp only [Option.some.injEq, Prod.mk.injEq] at h1
              refine Or.inr ⟨c.1.2, ?_⟩
              have hcc : ((s', c.1.2), m') = c := by rw [← h1.1, ← h1.2]
              rw [hcc]
              exact List.mem_cons_self c rest
        | some p =>
            obtain ⟨s0, m0⟩ := p
            simp only [posStep] at h1
            split_ifs at h1 with hc
            · simp only [Option.some.injEq, Prod.mk.injEq] at h1
              refine Or.inr ⟨c.1.2, ?_⟩
              have hcc : ((s', c.1.2), m') = c := by rw [← h1.1, ← h1.2]
              rw [hcc]
              exact List.mem_cons_self c rest
            · exact Or.inl h1
      · obtain ⟨e, he⟩ := h1
        exact Or.inr ⟨e, List.mem_cons_of_mem c he⟩

theorem negStep_fold_le (cells : List ((ℚ × String) × ℚ)) (s m : ℚ) :
    ∃ s' m', cells.foldl negStep (some (s, m)) = some (s', m') ∧ m' ≤ m := by
  induction cells generalizing s m with
  | nil => exact ⟨s, m, rfl, le_refl m⟩
  | cons c rest ih =>
      simp only [List.foldl_cons, negStep]
      split_ifs with hc
      · obtain ⟨s', m', h, hle⟩ := ih c.1.1 c.2
        exact ⟨s', m', h, le_trans hle (le_of_lt hc.2)⟩
      · exact ih s m

theorem negStep_fold_dominates (cells : List ((ℚ × String) × ℚ))
    (acc : Option (ℚ × ℚ)) (d : (ℚ × String) × ℚ) (hd : d ∈ cells)
    (hneg : d.2 < 0) :
    ∃ s' m', cells.foldl negStep acc = some (s', m') ∧ m' ≤ d.2 := by
  induction cells generalizing acc with
  | nil => cases hd
  | cons c rest ih =>
      rcases List.mem_cons.mp hd with rfl | hd
      · cases acc with
        | none =>
            simp only [List.foldl_cons, negStep, if_pos hneg]
            exact negStep_fold_le rest d.1.1 d.2
        | some p =>
            obtain ⟨s, m⟩ := p
            simp only [List.foldl_cons, negStep]
            split_ifs with hc
            · exact negStep_fold_le rest d.1.1 d.2
            · have hdm : m ≤ d.2 := by
                rcases not_and_or.mp hc with h1 | h1
                · exact absurd hneg h1
                · exact le_of_not_lt h1
              obtain ⟨s', m', h, hle⟩ := negStep_fold_le rest s m
              exact ⟨s', m', h, le_trans hle hdm⟩
      · exact ih (negStep acc c) hd

theorem negStep_preserves_neg {acc : Option (ℚ × ℚ)} {c : (ℚ × String) × ℚ}
    {s m : ℚ} (hacc : ∀ s0 m0, acc = some (s0, m0) → m0 < 0)
    (h : negStep acc c = some (s, m)) : m < 0 := by
  cases acc with
  | none =>
      simp only [negStep] at h
      split_ifs at h with hc
      · simp only [Option.some.injEq, Prod.mk.injEq] at h
        exact h.2 ▸ hc
  | some p =>
      obtain ⟨s0, m0⟩ := p
      simp only [negStep] at h
      split_ifs at h with hc
      · simp only [Option.some.injEq, Prod.mk.injEq] at h
        exact h.2 ▸ hc.1
      · simp only [Option.some.injEq, Prod.mk.injEq] at h
        exact h.2 ▸ hacc s0 m0 rfl

theorem negStep_fold_neg (cells : List ((ℚ × String) × ℚ))
    (acc : Option (ℚ × ℚ)) (hacc : ∀ s0 m0, acc = some (s0, m0) → m0 < 0) :
    ∀ s' m', cells.foldl negStep acc = some (s', m') → m' < 0 := by
  induction cells generalizing acc with
  | nil => exact hacc
  | cons c rest ih =>
      intro s' m' h
      refine ih (negStep acc c) ?_ s' m' h
      intro s0 m0 h0
      exact negStep_preserves_neg hacc h0

theorem negStep_fold_mem (cells : List ((ℚ × String) × ℚ))
    (acc : Option (ℚ × ℚ)) (s' m' : ℚ)
    (h : cells.foldl negStep acc = some (s', m')) :
    acc = some (s', m') ∨ ∃ e, ((s', e), m') ∈ cells := by
  induction cells generalizing acc with
  | nil => exact Or.inl h
  | cons c rest ih =>
      rcases ih (negStep acc c) h with h1 | h1
      · cases acc with
        | none =>
            simp only [negStep] at h1
            split_ifs at h1 with hc
            · simp only [Option.some.injEq, Prod.mk.injEq] at h1
              refine Or.inr ⟨c.1.2, ?_⟩
              have hcc : ((s', c.1.2), m') = c := by rw [← h1.1, ← h1.2]
              rw [hcc]
              exact List.mem_cons_self c rest
        | some p =>
            obtain ⟨s0, m0⟩ := p
            simp only [negStep] at h1
            split_ifs at h1 with hc
            · simp only [Option.some.injEq, Prod.mk.injEq] at h1
              refine Or.inr ⟨c.1.2, ?_⟩
              have hcc : ((s', c.1.2), m') = c := by rw [← h1.1, ← h1.2]
              rw [hcc]
              exact List.mem_cons_self c rest
            · exact Or.inl h1
      · obtain ⟨e, he⟩ := h1
        exact Or.inr ⟨e, List.mem_cons_of_mem c he⟩

theorem findStars_fst (cells : List ((ℚ × String) × ℚ)) :
    findStars cells = (cells.foldl posStep none, cells.foldl negStep none) := by
  unfold findStars
  exact foldl_pair_split posStep negStep cells none none

/-- C4 counterexample: two cells tie at +250,000 on strikes 110 and 100;
the aggregator reports the FIRST-processed strike, not the lower one:
contract order [110, 100] yields call wall 110 while the reversed order
yields 100 — contradicting the claimed lower-strike, order-independent
tie-break. -/
theorem gamma_tie_break_counterexample :
    (computeStarLevels [⟨"X", 110, "E", "CALL", 100, 0, 1/100, 500⟩,
                        ⟨"X", 100, "E", "CALL", 100, 0, 1/100, 500⟩]).map
        (fun g => g.2.maxPositiveGammaStrike) = [some 110] ∧
    (computeStarLevels [⟨"X", 100, "E", "CALL", 100, 0, 1/100, 500⟩,
                        ⟨"X", 110, "E", "CALL", 100, 0, 1/100, 500⟩]).map
        (fun g => g.2.maxPositiveGammaStrike) = [some 100] := by
  constructor <;>
    norm_num +decide [computeStarLevels, groupContracts, insertGroup, starLevels,
      findStars, posStep, negStep, cellGex, addCell, List.foldl]

/-- C4 amended: the reported walls are genuinely extremal — the call wall
is a strictly positive cell whose value dominates every cell, the put
wall a strictly negative cell dominated by every cell — but an exact tie
is resolved by processing order (the first-inserted tied cell wins), not
by picking the lower strike, so the result depends on contract order. -/
theorem gamma_walls_extremal :
    (∀ cells s v, (findStars cells).1 = some (s, v) →
        0 < v ∧ (∃ e, ((s, e), v) ∈ cells) ∧ ∀ d ∈ cells, d.2 ≤ v) ∧
    (∀ cells s v, (findStars cells).2 = some (s, v) →
        v < 0 ∧ (∃ e, ((s, e), v) ∈ cells) ∧ ∀ d ∈ cells, v ≤ d.2) := by
  constructor
  · intro cells s v h
    rw [findStars_fst] at h
    have hv : 0 < v :=
      posStep_fold_pos cells none (fun s0 m0 h0 => absurd h0 (by simp)) s v h
    refine ⟨hv, ?_, ?_⟩
    · rcases posStep_fold_mem cells none s v h with h1 | h1
      · exact absurd h1 (by simp)
      · exact h1
    · intro d hd
      by_cases hdpos : 0 < d.2
      · obtain ⟨s', m', h2, hle⟩ := posStep_fold_dominates cells none d hd hdpos
        have h' : List.foldl posStep none cells = some (s, v) := h
        rw [h'] at h2
        simp only [Option.some.injEq, Prod.mk.injEq] at h2
        rw [← h2.2] at hle
        exact hle
      · exact le_trans (le_of_not_lt hdpos) (le_of_lt hv)
  · intro cells s v h
    rw [findStars_fst] at h
    have hv : v < 0 :=
      negStep_fold_neg cells none (fun s0 m0 h0 => absurd h0 (by simp)) s v h
    refine ⟨hv, ?_, ?_⟩
    · rcases negStep_fold_mem cells none s v h with h1 | h1
      · exact absurd h1 (by simp)
      · exact h1
    · intro d hd
      by_cases hdneg : d.2 < 0
      · obtain ⟨s', m', h2, hle⟩ := negStep_fold_dominates cells none d hd hdneg
        have h' : List.foldl negStep none cells = some (s, v) := h
        rw [h'] at h2
        simp only [Option.some.injEq, Prod.mk.injEq] at h2
        rw [← h2.2] at hle
        exact hle
      · exact le_trans (le_of_lt hv) (le_of_not_lt hdneg)

/-- Witness for C4's amended theorem at a concrete cell list. -/
theorem gamma_walls_extremal_witness :
    0 < (250000:ℚ) ∧
    (∃ e, (((110:ℚ), e), (250000:ℚ)) ∈
      [(((110:ℚ), "E"), (250000:ℚ)), (((100:ℚ), "E"), (250000:ℚ))]) ∧
    ∀ d ∈ [(((110:ℚ), "E"), (250000:ℚ)), (((100:ℚ), "E"), (250000:ℚ))],
      d.2 ≤ (250000:ℚ) :=
  gamma_walls_extremal.1
    [(((110:ℚ), "E"), (250000:ℚ)), (((100:ℚ), "E"), (250000:ℚ))] 110 250000
    (by norm_num [findStars, posStep, negStep, List.foldl])

/- ───────────── C5 ───────────── -/

theorem dteCurveRaw_mono_le30 {a b : ℚ} (hab : a ≤ b) (hb : b ≤ 30) :
    dteCurveRaw b ≤ dteCurveRaw a := by
  unfold dteCurveRaw
  split_ifs <;> linarith

theorem dteCurveRaw_mono_gt30 {a b : ℚ} (ha : 30 < a) (hab : a ≤ b) :
    dteCurveRaw b ≤ dteCurveRaw a := by
  unfold dteCurveRaw
  split_ifs <;> try linarith
  exact max_le_max (le_refl _) (by linarith)

theorem dteCurveRaw_ge_le30 {a : ℚ} (ha : a ≤ 30) :
    9999/10000 ≤ dteCurveRaw a := by
  unfold dteCurveRaw
  split_ifs <;> linarith

theorem dteCurveRaw_lt_one_gt30 {a : ℚ} (ha : 30 < a) : dteCurveRaw a < 1 := by
  unfold dteCurveRaw
  split_ifs <;> try linarith
  exact max_lt (by norm_num) (by linarith)

theorem dteCurveRaw_bounds (a : ℚ) :
    1/2 ≤ dteCurveRaw a ∧ dteCurveRaw a ≤ 3/2 := by
  unfold dteCurveRaw
  split_ifs with h1 h2 h3
  · constructor <;> norm_num
  · constructor <;> linarith
  · constructor <;> linarith
  · constructor
    · exact le_max_left _ _
    · exact max_le (by norm_num) (by linarith)

theorem roundTo3_ge_one {q : ℚ} (h : 9999/10000 ≤ q) : 1 ≤ roundTo 3 q := by
  have hm := roundTo_mono 3 h
  have hval : roundTo 3 (9999/10000 : ℚ) = 1 := by
    norm_num [roundTo, round_eq]
  linarith [hval ▸ hm]

theorem roundTo3_le_one {q : ℚ} (h : q < 1) : roundTo 3 q ≤ 1 := by
  have hm := roundTo_mono 3 (le_of_lt h)
  have hval : roundTo 3 (1 : ℚ) = 1 := by
    norm_num [roundTo, round_eq]
  linarith [hval ▸ hm]

theorem dteCurve_bounds (a : ℚ) : 1/2 ≤ dteCurve a ∧ dteCurve a ≤ 3/2 := by
  obtain ⟨h1, h2⟩ := dteCurveRaw_bounds a
  have hlo := roundTo_mono 3 h1
  have hhi := roundTo_mono 3 h2
  have hhalf : roundTo 3 (1/2 : ℚ) = 1/2 := by norm_num [roundTo, round_eq]
  have h32 : roundTo 3 (3/2 : ℚ) = 3/2 := by norm_num [roundTo, round_eq]
  unfold dteCurve
  constructor
  · rw [hhalf] at hlo; exact hlo
  · rw [h32] at hhi; exact hhi

/-- C5 (confirmed): the multiplier, as a function of the average DTE, is
non-increasing, and every returned multiplier lies in [0.5, 1.5].  Note
the unrounded curve is NOT monotone across the 30-day breakpoint (it
steps up from 0.9999 towards 1.0), but the final round-to-3-decimals
restores monotonicity, since every value of the ≤30 side rounds to at
least 1.0 and every value of the >30 side rounds to at most 1.0. -/
theorem dte_multiplier_monotone_bounded :
    (∀ a b : ℚ, a ≤ b → dteCurve b ≤ dteCurve a) ∧
    (∀ a : ℚ, 1/2 ≤ dteCurve a ∧ dteCurve a ≤ 3/2) ∧
    (∀ (pd : String → Option ℤ) (contracts : List Contract) (price : ℚ),
      1/2 ≤ computeDteWeight pd contracts price ∧
      computeDteWeight pd contracts price ≤ 3/2) := by
  refine ⟨?_, dteCurve_bounds, ?_⟩
  · intro a b hab
    by_cases hb : b ≤ 30
    · exact roundTo_mono 3 (dteCurveRaw_mono_le30 hab hb)
    · push_neg at hb
      by_cases ha : a ≤ 30
      · calc dteCurve b ≤ 1 := roundTo3_le_one (dteCurveRaw_lt_one_gt30 hb)
          _ ≤ dteCurve a := roundTo3_ge_one (dteCurveRaw_ge_le30 ha)
      · push_neg at ha
        exact roundTo_mono 3 (dteCurveRaw_mono_gt30 ha hab)
  · intro pd contracts price
    simp only [computeDteWeight]
    split_ifs
    · norm_num
    · norm_num
    · exact dteCurve_bounds _

/-- Witness for C5 at concrete average DTEs and a concrete call. -/
theorem dte_multiplier_monotone_bounded_witness :
    dteCurve 31 ≤ dteCurve 2 ∧
    (1/2 ≤ dteCurve 2 ∧ dteCurve 2 ≤ 3/2) ∧
    (1/2 ≤ computeDteWeight (fun _ => none) [] 100 ∧
      computeDteWeight (fun _ => none) [] 100 ≤ 3/2) :=
  ⟨dte_multiplier_monotone_bounded.1 2 31 (by norm_num),
   dte_multiplier_monotone_bounded.2.1 2,
   dte_multiplier_monotone_bounded.2.2 (fun _ => none) [] 100⟩

/- ───────────── C10 ───────────── -/

/-- C10 (confirmed): with a positive price the Wall Proximity sub-scorer
scores at least 2 (the else bucket, 0.15 × 15 truncated) even when both
wall strikes are absent, and at most 15; with price ≤ 0 it scores 0 — so
a missing-walls ticker is not distinguishable from a far-from-wall one
by score magnitude alone. -/
theorem wall_proximity_floor :
    ∀ (price : ℚ) (posStrike negStrike : Option ℚ),
      (0 < price →
        2 ≤ (scoreWallProximity price posStrike negStrike 15).score ∧
        (scoreWallProximity price posStrike negStrike 15).score ≤ 15) ∧
      (price ≤ 0 → (scoreWallProximity price posStrike negStrike 15).score = 0) := by
  have hb : ∀ b : ℚ,
      2 ≤ ⌊(if b ≤ 1/2 then (1:ℚ) else if b ≤ 1 then 17/20 else if b ≤ 2 then 13/20
              else if b ≤ 5 then 2/5 else 3/20) * ((15:ℤ):ℚ)⌋ ∧
      ⌊(if b ≤ 1/2 then (1:ℚ) else if b ≤ 1 then 17/20 else if b ≤ 2 then 13/20
              else if b ≤ 5 then 2/5 else 3/20) * ((15:ℤ):ℚ)⌋ ≤ 15 := by
    intro b
    split_ifs <;> constructor <;> norm_num
  intro price posStrike negStrike
  constructor
  · intro hp
    simp only [scoreWallProximity, if_neg (not_le.mpr hp)]
    exact hb _
  · intro hp
    simp only [scoreWallProximity, if_pos hp]

/-- Witness for C10 at price 100 with both walls absent. -/
theorem wall_proximity_floor_witness :
    2 ≤ (scoreWallProximity 100 none none 15).score ∧
    (scoreWallProximity 100 none none 15).score ≤ 15 :=
  (wall_proximity_floor 100 none none).1 (by norm_num)

/- ───────────── C8 ───────────── -/

/-- C8 (confirmed): scoring a ticker with no contracts, no analytics, no
gamma levels and no historical context produces sub-scores
[0, 0, 0, 0, 1, 0, 0, 0, 3] — only the IV-rank default (iv_rank 0.5) and
the DTE-conviction default (multiplier 1.0) are non-zero — and the total
is 4, which is at most 10. -/
theorem score_ticker_empty (pd : String → Option ℤ) (ticker : String) :
    ((scoreTicker pd ticker [] none none none).signals.map (fun s => s.score) =
      [0, 0, 0, 0, 1, 0, 0, 0, 3]) ∧
    (scoreTicker pd ticker [] none none none).score = 4 ∧
    (scoreTicker pd ticker [] none none none).score ≤ 10 := by
  have hdte : computeDteWeight pd [] 0 = 1 := by norm_num [computeDteWeight]
  have h1 : scoreGexRegime 0 (1/2) 20 = ⟨"GEX Regime", 0, 20, "No GEX data available"⟩ := by
    norm_num [scoreGexRegime]
  have h2 : scoreWallProximity 0 none none 15 = ⟨"Wall Proximity", 0, 15, "No price data"⟩ := by
    norm_num [scoreWallProximity]
  have h3 : scorePcSkew pd [] 0 1 12 = ⟨"P/C Skew", 0, 12, "No contract data"⟩ := by
    simp [scorePcSkew]
  have h4 : scoreVolumeOiSurge pd [] 0 1 12 = ⟨"Vol/OI Surge", 0, 12, "No contract data"⟩ := by
    simp [scoreVolumeOiSurge]
  have h5 : scoreIvRank (some (1/2)) 10 = ⟨"IV Rank", 1, 10, "ELEVATED"⟩ := by
    norm_num [scoreIvRank]
  have h6 : scoreDirectionalBias none 0 10 = ⟨"Directional Bias", 0, 10, "No analytics data"⟩ := rfl
  have h7 : scoreGexMomentum none 8 = ⟨"GEX Momentum", 0, 8, "Insufficient history"⟩ := rfl
  have h8 : scoreSkewMomentum [] 0 none 5 = ⟨"Skew Momentum", 0, 5, "No contract data"⟩ := by
    simp [scoreSkewMomentum]
  have h9 : scoreDteConviction 1 8 = ⟨"DTE Conviction", 3, 8, "DTE multiplier"⟩ := by
    norm_num [scoreDteConviction]
  refine ⟨?_, ?_, ?_⟩ <;>
    norm_num [scoreTicker, hdte, h1, h2, h3, h4, h5, h6, h7, h8, h9]

/- ───────────── C1 ───────────── -/

theorem scoreGexRegime_bounds (netGex percentile : ℚ) {mw : ℤ} (hm : 0 ≤ mw) :
    0 ≤ (scoreGexRegime netGex percentile mw).score ∧
    (scoreGexRegime netGex percentile mw).score ≤ mw := by
  simp only [scoreGexRegime]
  split_ifs <;>
    first
      | exact ⟨le_refl 0, hm⟩
      | exact floorScore_bounds (le_min (by norm_num) (by positivity))
          (min_le_left _ _) hm

theorem scoreWallProximity_bounds (price : ℚ) (ps ns : Option ℚ) {mw : ℤ}
    (hm : 0 ≤ mw) :
    0 ≤ (scoreWallProximity price ps ns mw).score ∧
    (scoreWallProximity price ps ns mw).score ≤ mw := by
  have hb : ∀ b : ℚ,
      0 ≤ ⌊(if b ≤ 1/2 then (1:ℚ) else if b ≤ 1 then 17/20 else if b ≤ 2 then 13/20
              else if b ≤ 5 then 2/5 else 3/20) * (mw:ℚ)⌋ ∧
      ⌊(if b ≤ 1/2 then (1:ℚ) else if b ≤ 1 then 17/20 else if b ≤ 2 then 13/20
              else if b ≤ 5 then 2/5 else 3/20) * (mw:ℚ)⌋ ≤ mw := by
    intro b
    split_ifs <;> exact floorScore_bounds (by norm_num) (by norm_num) hm
  by_cases hp : price ≤ 0
  · simp only [scoreWallProximity, if_pos hp]
    exact ⟨le_refl 0, hm⟩
  · simp only [scoreWallProximity, if_neg hp]
    exact hb _

theorem scorePcSkew_bounds (pd : String → Option ℤ) (contracts : List Contract)
    (price dm : ℚ) {mw : ℤ} (hm : 0 ≤ mw) :
    0 ≤ (scorePcSkew pd contracts price dm mw).score ∧
    (scorePcSkew pd contracts price dm mw).score ≤ mw := by
  simp only [scorePcSkew]
  split_ifs <;>
    first
      | exact ⟨le_refl 0, hm⟩
      | exact floorScore_bounds (by norm_num) (by norm_num) hm

theorem scoreVolumeOiSurge_bounds (pd : String → Option ℤ)
    (contracts : List Contract) (price dm : ℚ) {mw : ℤ} (hm : 0 ≤ mw) :
    0 ≤ (scoreVolumeOiSurge pd contracts price dm mw).score ∧
    (scoreVolumeOiSurge pd contracts price dm mw).score ≤ mw := by
  simp only [scoreVolumeOiSurge]
  split_ifs <;>
    first
      | exact ⟨le_refl 0, hm⟩
      | exact floorScore_bounds (by norm_num) (by norm_num) hm

theorem scoreIvRank_bounds (ivRank : Option ℚ) {mw : ℤ} (hm : 0 ≤ mw)
    (hiv : ∀ v, ivRank = some v → 0 ≤ v ∧ v ≤ 1) :
    0 ≤ (scoreIvRank ivRank mw).score ∧ (scoreIvRank ivRank mw).score ≤ mw := by
  cases ivRank with
  | none => exact ⟨le_refl 0, hm⟩
  | some v =>
      obtain ⟨h0, h1⟩ := hiv v rfl
      have hd : |v - 1/2| * 2 ≤ 1 := by
        have habs : |v - 1/2| ≤ 1/2 := abs_le.mpr ⟨by linarith, by linarith⟩
        linarith
      simp only [scoreIvRank]
      exact floorScore_bounds (by positivity) (by linarith) hm

theorem scoreDirectionalBias_bounds (analytics : Option Analytics) (price : ℚ)
    {mw : ℤ} (hm : 0 ≤ mw) :
    0 ≤ (scoreDirectionalBias analytics price mw).score ∧
    (scoreDirectionalBias analytics price mw).score ≤ mw := by
  cases analytics with
  | none => exact ⟨le_refl 0, hm⟩
  | some a =>
      simp only [scoreDirectionalBias]
      split_ifs <;>
        first
          | exact ⟨le_refl 0, hm⟩
          | exact floorScore_bounds (by norm_num) (by norm_num) hm

theorem scoreGexMomentum_bounds (momentum : Option Momentum) {mw : ℤ}
    (hm : 0 ≤ mw) :
    0 ≤ (scoreGexMomentum momentum mw).score ∧
    (scoreGexMomentum momentum mw).score ≤ mw := by
  cases momentum with
  | none => exact ⟨le_refl 0, hm⟩
  | some m =>
      simp only [scoreGexMomentum]
      split_ifs <;>
        first
          | exact ⟨le_refl 0, hm⟩
          | exact floorScore_bounds (by norm_num) (by norm_num) hm

theorem scoreSkewMomentum_bounds (contracts : List Contract) (price : ℚ)
    (prev : Option ℚ) {mw : ℤ} (hm : 0 ≤ mw) :
    0 ≤ (scoreSkewMomentum contracts price prev mw).score ∧
    (scoreSkewMomentum contracts price prev mw).score ≤ mw := by
  simp only [scoreSkewMomentum]
  split_ifs <;>
    first
      | exact ⟨le_refl 0, hm⟩
      | exact floorScore_bounds (by norm_num) (by norm_num) hm

theorem scoreDteConviction_bounds (dm : ℚ) {mw : ℤ} (hm : 0 ≤ mw) :
    0 ≤ (scoreDteConviction dm mw).score ∧
    (scoreDteConviction dm mw).score ≤ mw := by
  simp only [scoreDteConviction]
  split_ifs <;> exact floorScore_bounds (by norm_num) (by norm_num) hm

theorem scoreGexRegime_maxScore (n p : ℚ) (mw : ℤ) :
    (scoreGexRegime n p mw).maxScore = mw := by
  simp only [scoreGexRegime]
  split_ifs <;> rfl

theorem scoreWallProximity_maxScore (price : ℚ) (ps ns : Option ℚ) (mw : ℤ) :
    (scoreWallProximity price ps ns mw).maxScore = mw := by
  by_cases hp : price ≤ 0
  · simp only [scoreWallProximity, if_pos hp]
  · simp only [scoreWallProximity, if_neg hp]

theorem scorePcSkew_maxScore (pd : String → Option ℤ) (cs : List Contract)
    (price dm : ℚ) (mw : ℤ) : (scorePcSkew pd cs price dm mw).maxScore = mw := by
  simp only [scorePcSkew]
  split_ifs <;> rfl

theorem scoreVolumeOiSurge_maxScore (pd : String → Option ℤ) (cs : List Contract)
    (price dm : ℚ) (mw : ℤ) :
    (scoreVolumeOiSurge pd cs price dm mw).maxScore = mw := by
  simp only [scoreVolumeOiSurge]
  split_ifs <;> rfl

theorem scoreIvRank_maxScore (iv : Option ℚ) (mw : ℤ) :
    (scoreIvRank iv mw).maxScore = mw := by
  cases iv <;> rfl

theorem scoreDirectionalBias_maxScore (a : Option Analytics) (price : ℚ)
    (mw : ℤ) : (scoreDirectionalBias a price mw).maxScore = mw := by
  cases a with
  | none => rfl
  | some a =>
      simp only [scoreDirectionalBias]
      split_ifs <;> rfl

theorem scoreGexMomentum_maxScore (m : Option Momentum) (mw : ℤ) :
    (scoreGexMomentum m mw).maxScore = mw := by
  cases m with
  | none => rfl
  | some m =>
      simp only [scoreGexMomentum]
      split_ifs <;> rfl

theorem scoreSkewMomentum_maxScore (cs : List Contract) (price : ℚ)
    (prev : Option ℚ) (mw : ℤ) :
    (scoreSkewMomentum cs price prev mw).maxScore = mw := by
  simp only [scoreSkewMomentum]
  split_ifs <;> rfl

theorem scoreDteConviction_maxScore (dm : ℚ) (mw : ℤ) :
    (scoreDteConviction dm mw).maxScore = mw := by
  simp only [scoreDteConviction]

/-- C1 (confirmed): whenever the supplied historical percentile and
IV-rank values lie in [0,1], every one of the 9 sub-scores lies in
[0, its max_weight], the max weights are exactly the WEIGHTS table
20+15+12+12+10+10+8+5+8 = 100, and the clamped total lies in [0,100]. -/
theorem score_ticker_bounds (pd : String → Option ℤ) (ticker : String)
    (contracts : List Contract) (analytics : Option Analytics)
    (gammaLevels : Option TickerLevels) (ctx : Option HistCtx)
    (hctx : ∀ h, ctx = some h →
      (0 ≤ h.gexPercentile ∧ h.gexPercentile ≤ 1) ∧
      (∀ v, h.ivRank = some v → 0 ≤ v ∧ v ≤ 1)) :
    (∀ s ∈ (scoreTicker pd ticker contracts analytics gammaLevels ctx).signals,
      0 ≤ s.score ∧ s.score ≤ s.maxScore) ∧
    ((scoreTicker pd ticker contracts analytics gammaLevels ctx).signals.map
      (fun s => s.maxScore) = [20, 15, 12, 12, 10, 10, 8, 5, 8]) ∧
    0 ≤ (scoreTicker pd ticker contracts analytics gammaLevels ctx).score ∧
    (scoreTicker pd ticker contracts analytics gammaLevels ctx).score ≤ 100 := by
  have hiv : ∀ v,
      (match ctx with | some h => h.ivRank | none => some (1/2)) = some v →
      0 ≤ v ∧ v ≤ 1 := by
    rcases ctx with _ | h
    · intro v hv
      simp only [Option.some.injEq] at hv
      exact hv ▸ ⟨by norm_num, by norm_num⟩
    · exact (hctx h rfl).2
  refine ⟨?_, ?_, ?_, ?_⟩
  · simp only [scoreTicker]
    intro s hs
    simp only [List.mem_cons, List.not_mem_nil, or_false] at hs
    rcases hs with rfl | rfl | rfl | rfl | rfl | rfl | rfl | rfl | rfl
    · rw [scoreGexRegime_maxScore]
      exact scoreGexRegime_bounds _ _ (by norm_num)
    · rw [scoreWallProximity_maxScore]
      exact scoreWallProximity_bounds _ _ _ (by norm_num)
    · rw [scorePcSkew_maxScore]
      exact scorePcSkew_bounds _ _ _ _ (by norm_num)
    · rw [scoreVolumeOiSurge_maxScore]
      exact scoreVolumeOiSurge_bounds _ _ _ _ (by norm_num)
    · rw [scoreIvRank_maxScore]
      exact scoreIvRank_bounds _ (by norm_num) hiv
    · rw [scoreDirectionalBias_maxScore]
      exact scoreDirectionalBias_bounds _ _ (by norm_num)
    · rw [scoreGexMomentum_maxScore]
      exact scoreGexMomentum_bounds _ (by norm_num)
    · rw [scoreSkewMomentum_maxScore]
      exact scoreSkewMomentum_bounds _ _ _ (by norm_num)
    · rw [scoreDteConviction_maxScore]
      exact scoreDteConviction_bounds _ (by norm_num)
  · simp only [scoreTicker, List.map_cons, List.map_nil, scoreGexRegime_maxScore,
      scoreWallProximity_maxScore, scorePcSkew_maxScore, scoreVolumeOiSurge_maxScore,
      scoreIvRank_maxScore, scoreDirectionalBias_maxScore, scoreGexMomentum_maxScore,
      scoreSkewMomentum_maxScore, scoreDteConviction_maxScore]
  · simp only [scoreTicker]
    exact le_max_left 0 _
  · simp only [scoreTicker]
    exact max_le (by norm_num) (min_le_left _ _)

/-- Witness for C1 at a concrete scoring call with in-range context. -/
theorem score_ticker_bounds_witness :
    (∀ s ∈ (scoreTicker (fun _ => none) "SPY" [] none none
        (some ⟨1/2, none, some (1/2), none⟩)).signals,
      0 ≤ s.score ∧ s.score ≤ s.maxScore) ∧
    ((scoreTicker (fun _ => none) "SPY" [] none none
        (some ⟨1/2, none, some (1/2), none⟩)).signals.map
      (fun s => s.maxScore) = [20, 15, 12, 12, 10, 10, 8, 5, 8]) ∧
    0 ≤ (scoreTicker (fun _ => none) "SPY" [] none none
        (some ⟨1/2, none, some (1/2), none⟩)).score ∧
    (scoreTicker (fun _ => none) "SPY" [] none none
        (some ⟨1/2, none, some (1/2), none⟩)).score ≤ 100 :=
  score_ticker_bounds (fun _ => none) "SPY" [] none none
    (some ⟨1/2, none, some (1/2), none⟩)
    (by
      intro h hh
      simp only [Option.some.injEq] at hh
      subst hh
      refine ⟨⟨by norm_num, by norm_num⟩, ?_⟩
      intro v hv
      simp only [Option.some.injEq] at hv
      exact hv ▸ ⟨by norm_num, by norm_num⟩)

/- ───────────── C6 ───────────── -/

theorem applyTier_bullishTotal (t : Tally) (o : Outcome) :
    (applyTier t o).bullishTotal = t.bullishTotal := by
  simp only [applyTier]
  split_ifs <;> rfl

theorem applyTier_bullishCorrect (t : Tally) (o : Outcome) :
    (applyTier t o).bullishCorrect = t.bullishCorrect := by
  simp only [applyTier]
  split_ifs <;> rfl

theorem applyTier_bearishTotal (t : Tally) (o : Outcome) :
    (applyTier t o).bearishTotal = t.bearishTotal := by
  simp only [applyTier]
  split_ifs <;> rfl

theorem applyTier_bearishCorrect (t : Tally) (o : Outcome) :
    (applyTier t o).bearishCorrect = t.bearishCorrect := by
  simp only [applyTier]
  split_ifs <;> rfl

theorem applyTier_neutralTotal (t : Tally) (o : Outcome) :
    (applyTier t o).neutralTotal = t.neutralTotal := by
  simp only [applyTier]
  split_ifs <;> rfl

theorem applyDirection_bullishTotal (t : Tally) (o : Outcome) :
    (applyDirection t o).bullishTotal =
      t.bullishTotal + (if o.direction = "BULLISH" then 1 else 0) := by
  by_cases hb : o.direction = "BULLISH"
  · simp [applyDirection, hb]
  · by_cases hbe : o.direction = "BEARISH" <;> simp [applyDirection, hb, hbe]

theorem applyDirection_bearishTotal (t : Tally) (o : Outcome) :
    (applyDirection t o).bearishTotal =
      t.bearishTotal + (if o.direction = "BEARISH" then 1 else 0) := by
  by_cases hb : o.direction = "BULLISH"
  · have hbe : ¬o.direction = "BEARISH" := by rw [hb]; decide
    simp [applyDirection, hb, hbe]
  · by_cases hbe : o.direction = "BEARISH" <;> simp [applyDirection, hb, hbe]

theorem applyDirection_neutralTotal (t : Tally) (o : Outcome) :
    (applyDirection t o).neutralTotal =
      t.neutralTotal +
        (if ¬o.direction = "BULLISH" ∧ ¬o.direction = "BEARISH" then 1 else 0) := by
  by_cases hb : o.direction = "BULLISH"
  · simp [applyDirection, hb]
  · by_cases hbe : o.direction = "BEARISH" <;> simp [applyDirection, hb, hbe]

theorem applyDirection_bullishCorrect (t : Tally) (o : Outcome) :
    (applyDirection t o).bullishCorrect =
      t.bullishCorrect +
        (if o.direction = "BULLISH" ∧ 0 < o.returnPct then 1 else 0) := by
  by_cases hb : o.direction = "BULLISH"
  · by_cases hr : (0:ℚ) < o.returnPct <;>
      simp [applyDirection, outcomeHit, hb, hr]
  · by_cases hbe : o.direction = "BEARISH" <;> simp [applyDirection, hb, hbe]

theorem applyDirection_bearishCorrect (t : Tally) (o : Outcome) :
    (applyDirection t o).bearishCorrect =
      t.bearishCorrect +
        (if o.direction = "BEARISH" ∧ o.returnPct < 0 then 1 else 0) := by
  by_cases hb : o.direction = "BULLISH"
  · have hbe : ¬o.direction = "BEARISH" := by rw [hb]; decide
    simp [applyDirection, hb, hbe]
  · by_cases hbe : o.direction = "BEARISH"
    · by_cases hr : o.returnPct < (0:ℚ) <;>
        simp [applyDirection, outcomeHit, hb, hbe, hr]
    · simp [applyDirection, hb, hbe]

theorem foldl_bullishTotal (os : List Outcome) (t : Tally) :
    (os.foldl tallyStep t).bullishTotal =
      t.bullishTotal + os.countP (fun o => decide (o.direction = "BULLISH")) := by
  induction os generalizing t with
  | nil => simp
  | cons o rest ih =>
      rw [List.foldl_cons, ih, List.countP_cons, tallyStep,
        applyTier_bullishTotal, applyDirection_bullishTotal]
      simp only [decide_eq_true_eq]
      omega

theorem foldl_bullishCorrect (os : List Outcome) (t : Tally) :
    (os.foldl tallyStep t).bullishCorrect =
      t.bullishCorrect +
        os.countP (fun o => decide (o.direction = "BULLISH" ∧ 0 < o.returnPct)) := by
  induction os generalizing t with
  | nil => simp
  | cons o rest ih =>
      rw [List.foldl_cons, ih, List.countP_cons, tallyStep,
        applyTier_bullishCorrect, applyDirection_bullishCorrect]
      simp only [decide_eq_true_eq]
      omega

theorem foldl_bearishTotal (os : List Outcome) (t : Tally) :
    (os.foldl tallyStep t).bearishTotal =
      t.bearishTotal + os.countP (fun o => decide (o.direction = "BEARISH")) := by
  induction os generalizing t with
  | nil => simp
  | cons o rest ih =>
      rw [List.foldl_cons, ih, List.countP_cons, tallyStep,
        applyTier_bearishTotal, applyDirection_bearishTotal]
      simp only [decide_eq_true_eq]
      omega

theorem foldl_bearishCorrect (os : List Outcome) (t : Tally) :
    (os.foldl tallyStep t).bearishCorrect =
      t.bearishCorrect +
        os.countP (fun o => decide (o.direction = "BEARISH" ∧ o.returnPct < 0)) := by
  induction os generalizing t with
  | nil => simp
  | cons o rest ih =>
      rw [List.foldl_cons, ih, List.countP_cons, tallyStep,
        applyTier_bearishCorrect, applyDirection_bearishCorrect]
      simp only [decide_eq_true_eq]
      omega

theorem foldl_neutralTotal (os : List Outcome) (t : Tally) :
    (os.foldl tallyStep t).neutralTotal =
      t.neutralTotal +
        os.countP (fun o =>
          decide (¬o.direction = "BULLISH" ∧ ¬o.direction = "BEARISH")) := by
  induction os generalizing t with
  | nil => simp
  | cons o rest ih =>
      rw [List.foldl_cons, ih, List.countP_cons, tallyStep,
        applyTier_neutralTotal, applyDirection_neutralTotal]
      simp only [decide_eq_true_eq]
      omega

/-- C6 (confirmed): for a non-empty outcome list the reported hit rates
are exactly round(correct/total*100, 1) when the corresponding total is
positive and 0 otherwise (the guards mean no division is attempted on a
zero total), with the totals being the direction counts of the list. -/
theorem backtest_hit_rate_formula (hours : ℤ) (os : List Outcome)
    (hne : os ≠ []) :
    (evaluateRecommendations hours os).accuracy = some
      { bullishHitRate :=
          if 0 < os.countP (fun o => decide (o.direction = "BULLISH")) then
            roundTo 1
              ((os.countP (fun o =>
                  decide (o.direction = "BULLISH" ∧ 0 < o.returnPct)) : ℚ) /
                (os.countP (fun o => decide (o.direction = "BULLISH")) : ℚ) * 100)
          else 0
        bearishHitRate :=
          if 0 < os.countP (fun o => decide (o.direction = "BEARISH")) then
            roundTo 1
              ((os.countP (fun o =>
                  decide (o.direction = "BEARISH" ∧ o.returnPct < 0)) : ℚ) /
                (os.countP (fun o => decide (o.direction = "BEARISH")) : ℚ) * 100)
          else 0
        overallHitRate :=
          if 0 < os.countP (fun o => decide (o.direction = "BULLISH")) +
              os.countP (fun o => decide (o.direction = "BEARISH")) then
            roundTo 1
              (((os.countP (fun o =>
                    decide (o.direction = "BULLISH" ∧ 0 < o.returnPct)) +
                  os.countP (fun o =>
                    decide (o.direction = "BEARISH" ∧ o.returnPct < 0)) : ℕ) : ℚ) /
                ((os.countP (fun o => decide (o.direction = "BULLISH")) +
                  os.countP (fun o => decide (o.direction = "BEARISH")) : ℕ) : ℚ) * 100)
          else 0
        bullishTotal := os.countP (fun o => decide (o.direction = "BULLISH"))
        bearishTotal := os.countP (fun o => decide (o.direction = "BEARISH"))
        neutralTotal := os.countP (fun o =>
          decide (¬o.direction = "BULLISH" ∧ ¬o.direction = "BEARISH")) } := by
  simp only [evaluateRecommendations, if_neg hne, foldl_bullishTotal,
    foldl_bullishCorrect, foldl_bearishTotal, foldl_bearishCorrect,
    foldl_neutralTotal, emptyTally, zero_add]

/-- Witness for C6 on a one-element outcome history. -/
theorem backtest_hit_rate_formula_witness :
    (evaluateRecommendations 24 [⟨"A", 85, "BULLISH", 2⟩]).accuracy =
      some ⟨100, 0, 100, 1, 0, 0⟩ := by
  have h := backtest_hit_rate_formula 24 [⟨"A", 85, "BULLISH", 2⟩] (by decide)
  rw [h]
  norm_num +decide [List.countP_cons, List.countP_nil, roundTo, round_eq]

/- ───────────── C9 ───────────── -/

/-- C9 counterexample: with a single score-85 outcome, the three tiers
that received no outcome carry no 'hit_rate' key (it is set only inside
`if t['returns']:`), so not every tier object contains all four keys. -/
theorem backtest_tier_keys_counterexample :
    ((evaluateRecommendations 24 [⟨"A", 85, "BULLISH", 1⟩]).byScoreTier.map
      (fun p => (p.1, p.2.hitRate.isSome))) =
    [("80-100", true), ("60-79", false), ("40-59", false), ("0-39", false)] := by
  norm_num [evaluateRecommendations, tallyStep, applyDirection, applyTier,
    outcomeHit, bumpTier, emptyTally, emptyTierAcc, finalizeTier, List.foldl]

theorem bumpTier_count_len {a : TierAcc} (h : a.count = a.returns.length)
    (ret : ℚ) (hit : Bool) :
    (bumpTier a ret hit).count = (bumpTier a ret hit).returns.length := by
  simp [bumpTier, h]

theorem applyDirection_t80 (t : Tally) (o : Outcome) :
    (applyDirection t o).t80 = t.t80 := by
  simp only [applyDirection]
  split_ifs <;> rfl

theorem applyDirection_t60 (t : Tally) (o : Outcome) :
    (applyDirection t o).t60 = t.t60 := by
  simp only [applyDirection]
  split_ifs <;> rfl

theorem applyDirection_t40 (t : Tally) (o : Outcome) :
    (applyDirection t o).t40 = t.t40 := by
  simp only [applyDirection]
  split_ifs <;> rfl

theorem applyDirection_t0 (t : Tally) (o : Outcome) :
    (applyDirection t o).t0 = t.t0 := by
  simp only [applyDirection]
  split_ifs <;> rfl

theorem foldl_tier_counts (os : List Outcome) (t : Tally)
    (h : t.t80.count = t.t80.returns.length ∧ t.t60.count = t.t60.returns.length ∧
      t.t40.count = t.t40.returns.length ∧ t.t0.count = t.t0.returns.length) :
    (os.foldl tallyStep t).t80.count = (os.foldl tallyStep t).t80.returns.length ∧
    (os.foldl tallyStep t).t60.count = (os.foldl tallyStep t).t60.returns.length ∧
    (os.foldl tallyStep t).t40.count = (os.foldl tallyStep t).t40.returns.length ∧
    (os.foldl tallyStep t).t0.count = (os.foldl tallyStep t).t0.returns.length := by
  induction os generalizing t with
  | nil => exact h
  | cons o rest ih =>
      refine ih (tallyStep t o) ?_
      obtain ⟨h80, h60, h40, h0⟩ := h
      simp only [tallyStep, applyTier]
      split_ifs <;>
        refine ⟨?_, ?_, ?_, ?_⟩ <;>
          simp only [applyDirection_t80, applyDirection_t60, applyDirection_t40,
            applyDirection_t0] <;>
          first
            | exact h80 | exact h60 | exact h40 | exact h0
            | exact bumpTier_count_len h80 _ _
            | exact bumpTier_count_len h60 _ _
            | exact bumpTier_count_len h40 _ _
            | exact bumpTier_count_len h0 _ _

theorem finalizeTier_hitRate_iff (a : TierAcc) (ha : a.count = a.returns.length) :
    (finalizeTier a).hitRate.isSome ↔ 0 < (finalizeTier a).count := by
  by_cases h : a.returns = []
  · simp [finalizeTier, h, ha]
  · have : a.returns.length ≠ 0 := fun hz => h (List.length_eq_zero.mp hz)
    simp [finalizeTier, h, ha]
    omega

/-- C9 amended: for a non-empty outcome list the report has exactly the
four tiers in order (each tier object always carries count, correct and
avg_return), but the 'hit_rate' key is present exactly for the tiers
into which at least one outcome fell — an empty tier lacks it. -/
theorem backtest_tier_shape (hours : ℤ) (os : List Outcome) (hne : os ≠ []) :
    ((evaluateRecommendations hours os).byScoreTier.map Prod.fst =
      ["80-100", "60-79", "40-59", "0-39"]) ∧
    (∀ p ∈ (evaluateRecommendations hours os).byScoreTier,
      p.2.hitRate.isSome ↔ 0 < p.2.count) := by
  have hinv := foldl_tier_counts os emptyTally (by simp [emptyTally, emptyTierAcc])
  constructor
  · simp [evaluateRecommendations, if_neg hne]
  · intro p hp
    simp only [evaluateRecommendations, if_neg hne, List.mem_cons,
      List.not_mem_nil, or_false] at hp
    rcases hp with rfl | rfl | rfl | rfl
    · exact finalizeTier_hitRate_iff _ hinv.1
    · exact finalizeTier_hitRate_iff _ hinv.2.1
    · exact finalizeTier_hitRate_iff _ hinv.2.2.1
    · exact finalizeTier_hitRate_iff _ hinv.2.2.2

/-- Witness for C9's amended theorem on a one-element outcome history. -/
theorem backtest_tier_shape_witness :
    ((evaluateRecommendations 24 [⟨"B", 50, "BEARISH", -1⟩]).byScoreTier.map
        Prod.fst = ["80-100", "60-79", "40-59", "0-39"]) ∧
    (∀ p ∈ (evaluateRecommendations 24 [⟨"B", 50, "BEARISH", -1⟩]).byScoreTier,
      p.2.hitRate.isSome ↔ 0 < p.2.count) :=
  backtest_tier_shape 24 [⟨"B", 50, "BEARISH", -1⟩] (by decide)
